import Mathlib

/-!
Verification development for the price-tracker core (price engine,
threshold evaluation, cooldown gate, notification grouping, cycle
orchestration).

Modelling conventions:
* Python floats (prices, thresholds, percentages) are modelled as exact
  rationals; Python datetimes and timedeltas are modelled as rationals
  measured in days (so `timedelta(days=3)` is the rational `3`).
* Python `round(x, nd)` rounds to the nearest multiple of `10 ^ (-nd)`
  with ties going to the even choice; `roundHalfEven` / `pyRound` model
  that.
* Randomness (`random.random`, `random.uniform`) is modelled by passing
  the drawn percent change as an explicit argument.
* The notifier transport is modelled as a boolean-valued oracle
  `send_ok : email → product name → Bool`; the real
  `send_multi_retailer_notification` catches every exception and returns
  a boolean, so a boolean outcome is a faithful interface.
* Database rows are records in lists; SQLAlchemy relationship lookups
  become `List.find?` by id; in-place mutation becomes functional record
  update.  Code that would raise a Python exception is modelled with
  `Except String`.
-/

/-- Round a rational to the nearest integer with ties going to the even
integer.  This is the rounding rule of Python's builtin `round`. -/
def roundHalfEven (q : ℚ) : ℤ :=
  let f := ⌊q⌋
  if q - f < 1/2 then f
  else if 1/2 < q - f then f + 1
  else if f % 2 = 0 then f else f + 1

/-- Model of Python `round(q, nd)` on exact rationals. -/
def pyRound (q : ℚ) (nd : ℕ) : ℚ :=
  (roundHalfEven (q * 10 ^ nd) : ℚ) / 10 ^ nd

/-- Row of the `products` table (models.py). -/
structure Product where
  id : Nat
  name : String
  category : String
  retailer : String
  base_price : ℚ
  current_price : ℚ
  last_updated : ℚ
deriving DecidableEq

/-- Row of the `watches` table (models.py). -/
structure Watch where
  id : Nat
  email : String
  product_id : Nat
  threshold_type : String
  threshold_value : ℚ
  created_at : ℚ
  last_notified_at : Option ℚ
deriving DecidableEq

/-- Row of the `sale_events` table (models.py). -/
structure SaleEvent where
  id : Nat
  product_id : Nat
  sale_price : ℚ
  start_date : ℚ
  end_date : ℚ
deriving DecidableEq

/-- The database state seen by the checker: the three tables. -/
structure DB where
  products : List Product
  watches : List Watch
  sale_events : List SaleEvent
deriving DecidableEq

/-- `Product.discount_percent` (models.py): current discount percentage
from the base price, `0` when `base_price <= 0`. -/
def Product.discount_percent (p : Product) : ℚ :=
  if p.base_price ≤ 0 then 0
  else pyRound ((1 - p.current_price / p.base_price) * 100) 1

/-- `Watch.threshold_met` (models.py): a `percent` watch fires when the
discount percentage reaches the threshold; every other threshold type
takes the `else` branch and fires when the current price is at or below
the threshold. -/
def Watch.threshold_met (w : Watch) (p : Product) : Bool :=
  if w.threshold_type = "percent" then
    decide (p.discount_percent ≥ w.threshold_value)
  else
    decide (p.current_price ≤ w.threshold_value)

/-- `FLUCTUATION_CONFIG` (price_engine.py). -/
structure FluctuationConfig where
  min_percent : ℚ
  max_percent : ℚ
  sale_chance : ℚ
  flash_sale_min : ℚ
  flash_sale_max : ℚ
deriving DecidableEq

/-- The configured fluctuation parameters (price_engine.py). -/
def FLUCTUATION_CONFIG : FluctuationConfig :=
  { min_percent := -5
  , max_percent := 3
  , sale_chance := 1/10
  , flash_sale_min := -15
  , flash_sale_max := -10 }

/-- `apply_random_fluctuation` (price_engine.py) with the drawn percent
change passed explicitly: scale the current price, clamp from above by
`base_price` and from below by `base_price * 0.5`, then round to two
decimals. -/
def apply_random_fluctuation (product : Product) (percent_change : ℚ) : ℚ :=
  let new_price := product.current_price * (1 + percent_change / 100)
  let clamped_above := min new_price product.base_price
  let clamped := max clamped_above (product.base_price * (1/2))
  pyRound clamped 2

/-- `get_active_sale` (price_engine.py): first sale event of the product
whose date range contains `now` (both bounds inclusive). -/
def get_active_sale (sale_events : List SaleEvent) (product_id : Nat) (now : ℚ) :
    Option SaleEvent :=
  sale_events.find? (fun s =>
    s.product_id == product_id && decide (s.start_date ≤ now) &&
      decide (s.end_date ≥ now))

/-- `update_product_price` (price_engine.py): an active sale event takes
priority and its `sale_price` is written verbatim; otherwise the random
fluctuation result is written.  Returns the updated product and whether
the price came from a sale event. -/
def update_product_price (sale_events : List SaleEvent) (product : Product)
    (now : ℚ) (percent_change : ℚ) : Product × Bool :=
  match get_active_sale sale_events product.id now with
  | some active_sale =>
      ({ product with current_price := active_sale.sale_price, last_updated := now }, true)
  | none =>
      ({ product with
          current_price := apply_random_fluctuation product percent_change
        , last_updated := now }, false)

/-- One entry of the `details` list of `update_all_prices` (price_engine.py). -/
structure PriceUpdateDetail where
  product_id : Nat
  name : String
  old_price : ℚ
  new_price : ℚ
  is_sale_event : Bool
  discount_percent : ℚ
deriving DecidableEq

/-- The summary dict returned by `update_all_prices` (price_engine.py). -/
structure PriceSummary where
  total : Nat
  sale_events : Nat
  random_fluctuations : Nat
  details : List PriceUpdateDetail
deriving DecidableEq

/-- `update_all_prices` (price_engine.py): update every product in the
catalog, with the per-product random draw supplied by `draw` keyed on the
product id.  Returns the summary and the updated catalog. -/
def update_all_prices (sale_events : List SaleEvent) (products : List Product)
    (now : ℚ) (draw : Nat → ℚ) : PriceSummary × List Product :=
  let updated := products.map (fun p =>
    (p, update_product_price sale_events p now (draw p.id)))
  ( { total := products.length
    , sale_events := updated.countP (fun x => x.2.2)
    , random_fluctuations := updated.countP (fun x => !x.2.2)
    , details := updated.map (fun x =>
        { product_id := x.1.id
        , name := x.1.name
        , old_price := x.1.current_price
        , new_price := x.2.1.current_price
        , is_sale_event := x.2.2
        , discount_percent := x.2.1.discount_percent }) }
  , updated.map (fun x => x.2.1))

/-- `NOTIFICATION_COOLDOWN_DAYS` (checker.py), in days. -/
def NOTIFICATION_COOLDOWN_DAYS : ℚ := 3

/-- `is_cooldown_expired` (checker.py): true when the watch was never
notified or the cooldown window has elapsed. -/
def is_cooldown_expired (watch : Watch) (now : ℚ) : Bool :=
  match watch.last_notified_at with
  | none => true
  | some t => decide (now ≥ t + NOTIFICATION_COOLDOWN_DAYS)

/-- The per-watch diagnostic dict built by `check_watch` (checker.py).
The `_watch_ref` entry is represented by `watch_id`, which is how the
dispatch loop identifies the watch to stamp. -/
structure CheckResult where
  watch_id : Nat
  email : String
  product_name : String
  product_price : ℚ
  product_base_price : ℚ
  retailer : String
  discount_percent : ℚ
  threshold_type : String
  threshold_value : ℚ
  threshold_met : Bool
  cooldown_expired : Bool
  should_notify : Bool
  reason : String
deriving DecidableEq

/-- The diagnostic record produced by `check_watch` before the threshold
and cooldown flags are filled in. -/
def base_result (w : Watch) (p : Product) : CheckResult :=
  { watch_id := w.id
  , email := w.email
  , product_name := p.name
  , product_price := p.current_price
  , product_base_price := p.base_price
  , retailer := p.retailer
  , discount_percent := p.discount_percent
  , threshold_type := w.threshold_type
  , threshold_value := w.threshold_value
  , threshold_met := false
  , cooldown_expired := false
  , should_notify := false
  , reason := "" }

/-- The diagnostic record of a watch that is ready to notify. -/
def ready_result (w : Watch) (p : Product) : CheckResult :=
  { base_result w p with
      threshold_met := true
    , cooldown_expired := true
    , should_notify := true
    , reason := "Ready to notify" }

/-- `check_watch` (checker.py): look up the watched product and build the
diagnostic record.  In the source, `watch.product` on a watch whose
product row is missing yields `None` and the subsequent attribute access
raises `AttributeError`; that unhandled exception is modelled as
`Except.error`.  The cooldown reason string in the source interpolates
the timestamp; the constant prefix is kept here. -/
def check_watch (products : List Product) (w : Watch) (now : ℚ) :
    Except String CheckResult :=
  match products.find? (fun p => p.id == w.product_id) with
  | none => .error "AttributeError"
  | some product =>
      if !(w.threshold_met product) then
        .ok { base_result w product with reason := "Threshold not met" }
      else if !(is_cooldown_expired w now) then
        .ok { base_result w product with
                threshold_met := true, reason := "Cooldown active" }
      else
        .ok (ready_result w product)

/-- Insert a diagnostic record into the insertion-ordered grouping map
(`defaultdict(list)` keyed by `(email, product_name)` in checker.py):
append to the existing entry for the key, or add a new entry at the
end. -/
def add_to_group :
    List ((String × String) × List CheckResult) → (String × String) → CheckResult →
      List ((String × String) × List CheckResult)
  | [], key, r => [(key, [r])]
  | g :: gs, key, r =>
      if g.1 == key then (g.1, g.2 ++ [r]) :: gs else g :: add_to_group gs key r

/-- The grouping pass of `run_price_check` (checker.py): every result
flagged `should_notify` is appended to the bucket of its
`(email, product_name)` key, in result order. -/
def build_groups (results : List CheckResult) :
    List ((String × String) × List CheckResult) :=
  results.foldl
    (fun gs r =>
      if r.should_notify then add_to_group gs (r.email, r.product_name) r else gs)
    []

/-- Bucket of a key in the grouping map (empty when the key is absent). -/
def group_bucket (gs : List ((String × String) × List CheckResult))
    (key : String × String) : List CheckResult :=
  match gs.find? (fun g => g.1 == key) with
  | some g => g.2
  | none => []

/-- One deal entry of the list the dispatch loop of `run_price_check`
builds for the notifier (checker.py). -/
structure Deal where
  retailer : String
  current_price : ℚ
  base_price : ℚ
  savings : ℚ
  discount_percent : ℚ
deriving DecidableEq

/-- The deal dict built from one triggered diagnostic record
(checker.py, dispatch loop). -/
def deal_of_result (r : CheckResult) : Deal :=
  { retailer := r.retailer
  , current_price := r.product_price
  , base_price := r.product_base_price
  , savings := r.product_base_price - r.product_price
  , discount_percent := r.discount_percent }

/-- The content of the rendered multi-retailer message that the claims
are about: the headline price of the subject line and the deal rows in
rendering order. -/
structure EmailMessage where
  product_name : String
  subject_price : ℚ
  deals_sorted : List Deal
  threshold_type : String
  threshold_value : ℚ
deriving DecidableEq

/-- `build_multi_retailer_email` (notifier.py): sort the deals ascending
by current price with Python's stable `sorted` (modelled by the stable
`List.mergeSort`), use the first — cheapest — price as the subject
headline, and render the rows in sorted order.  The source indexes
`deals_sorted[0]`, which assumes a nonempty deals list (groups are never
empty); the model defaults the headline to `0` on the empty list. -/
def build_multi_retailer_email (product_name : String) (deals : List Deal)
    (threshold_type : String) (threshold_value : ℚ) : EmailMessage :=
  let deals_sorted :=
    deals.mergeSort (fun a b => decide (a.current_price ≤ b.current_price))
  { product_name := product_name
  , subject_price := ((deals_sorted.head?).map (fun d => d.current_price)).getD 0
  , deals_sorted := deals_sorted
  , threshold_type := threshold_type
  , threshold_value := threshold_value }

/-- Stamping of `last_notified_at` on every watch of a successfully sent
group (checker.py, dispatch loop); the object mutation through
`_watch_ref` is modelled as an update keyed on the watch id. -/
def stamp_group (watches : List Watch) (ids : List Nat) (now : ℚ) : List Watch :=
  watches.map (fun w =>
    if ids.contains w.id then { w with last_notified_at := some now } else w)

/-- The dispatch loop of `run_price_check` (checker.py): for each group in
insertion order, attempt one send; on success stamp every watch of the
group with `last_notified_at = now` and count the notification; on
failure leave every watch untouched and continue with the next group.
Returns the final watch table and the number of notifications sent. -/
def dispatch_groups (watches : List Watch)
    (groups : List ((String × String) × List CheckResult)) (now : ℚ)
    (send_ok : String → String → Bool) : List Watch × Nat :=
  groups.foldl
    (fun acc g =>
      if send_ok g.1.1 g.1.2 then
        (stamp_group acc.1 (g.2.map (fun r => r.watch_id)) now, acc.2 + 1)
      else acc)
    (watches, 0)

/-- The summary dict returned by `run_price_check` (checker.py). -/
structure Summary where
  timestamp : ℚ
  price_updates : PriceSummary
  watches_checked : Nat
  thresholds_met : Nat
  notifications_sent : Nat
  details : List CheckResult
deriving DecidableEq

/-- `run_price_check` (checker.py): update all prices, check every watch
against the updated catalog, group the triggered results, dispatch one
notification per group, and return the summary together with the new
database state.  An `AttributeError` from `check_watch` propagates and
aborts the cycle, as in the source. -/
def run_price_check (db : DB) (now : ℚ) (draw : Nat → ℚ)
    (send_ok : String → String → Bool) : Except String (Summary × DB) :=
  let ps := update_all_prices db.sale_events db.products now draw
  match db.watches.mapM (fun w => check_watch ps.2 w now) with
  | .error e => .error e
  | .ok results =>
      let groups := build_groups results
      let dg := dispatch_groups db.watches groups now send_ok
      .ok ( { timestamp := now
            , price_updates := ps.1
            , watches_checked := db.watches.length
            , thresholds_met := results.countP (fun r => r.threshold_met)
            , notifications_sent := dg.2
            , details := results }
          , { db with products := ps.2, watches := dg.1 })

/-- `check_single_product` (checker.py), the `check_watches_for_product`
entry point of the spec: run `check_watch` over the watches of one
product and return the diagnostics.  The function contains no assignment
and no commit, so the database state is returned unchanged. -/
def check_single_product (db : DB) (product_id : Nat) (now : ℚ) :
    Except String (List CheckResult) × DB :=
  ((db.watches.filter (fun w => w.product_id == product_id)).mapM
      (fun w => check_watch db.products w now)
  , db)

/-- Modelled from the spec: the spec's numeric-semantics sentence asks for
rounding that is half-away-from-zero to two decimals; no such rounding
exists in the source (price_engine.py uses Python `round`), so the spec's
rule is defined here verbatim for comparison: ties move away from
zero. -/
def roundHalfAwayFromZero (q : ℚ) (nd : ℕ) : ℚ :=
  let s := q * 10 ^ nd
  let n : ℤ := if 0 ≤ s then ⌊s + 1/2⌋ else ⌈s - 1/2⌉
  (n : ℚ) / 10 ^ nd

/-! ### Rounding lemmas -/

theorem roundHalfEven_cases (q : ℚ) :
    roundHalfEven q = ⌊q⌋ ∨ roundHalfEven q = ⌊q⌋ + 1 := by
  simp only [roundHalfEven]
  split
  · exact Or.inl rfl
  · split
    · exact Or.inr rfl
    · split
      · exact Or.inl rfl
      · exact Or.inr rfl

theorem floor_le_roundHalfEven (q : ℚ) : ⌊q⌋ ≤ roundHalfEven q := by
  rcases roundHalfEven_cases q with h | h <;> omega

theorem roundHalfEven_le_ceil (q : ℚ) : roundHalfEven q ≤ ⌈q⌉ := by
  have hfc := Int.floor_le_ceil q
  have hfl := Int.floor_le q
  simp only [roundHalfEven]
  split
  · exact hfc
  · rename_i h1
    have hlt : (⌊q⌋ : ℚ) < q := by
      have : (1:ℚ)/2 ≤ q - ⌊q⌋ := le_of_not_lt h1
      linarith
    have hc : ⌊q⌋ + 1 ≤ ⌈q⌉ := Int.add_one_le_ceil_iff.mpr hlt
    split
    · exact hc
    · split
      · exact hfc
      · exact hc

theorem abs_roundHalfEven_sub (q : ℚ) : |(roundHalfEven q : ℚ) - q| ≤ 1/2 := by
  have h1 := Int.floor_le q
  have h2 := Int.lt_floor_add_one q
  simp only [roundHalfEven]
  split
  · rename_i hb
    rw [abs_le]
    constructor <;> linarith
  · rename_i hb
    have hb' : (1:ℚ)/2 ≤ q - ⌊q⌋ := le_of_not_lt hb
    split
    · rename_i hc
      rw [abs_le]
      push_cast
      constructor <;> linarith
    · rename_i hc
      have hc' : q - ⌊q⌋ ≤ 1/2 := le_of_not_lt hc
      split
      · rw [abs_le]
        constructor <;> linarith
      · rw [abs_le]
        push_cast
        constructor <;> linarith

theorem roundHalfEven_even_of_tie (q : ℚ) (h : q - ⌊q⌋ = 1/2) :
    roundHalfEven q % 2 = 0 := by
  simp only [roundHalfEven, h]
  norm_num
  split
  · rename_i he
    exact he
  · rename_i he
    omega

theorem roundHalfEven_eq_of_lt_half (q : ℚ) (f : ℤ) (h1 : (f:ℚ) ≤ q)
    (h2 : q < f + 1/2) : roundHalfEven q = f := by
  have hf : ⌊q⌋ = f := Int.floor_eq_iff.mpr ⟨h1, by push_cast; linarith⟩
  simp only [roundHalfEven, hf]
  rw [if_pos]
  linarith

theorem roundHalfEven_eq_of_gt_half (q : ℚ) (f : ℤ) (h1 : (f:ℚ) + 1/2 < q)
    (h2 : q < f + 1) : roundHalfEven q = f + 1 := by
  have hf : ⌊q⌋ = f := Int.floor_eq_iff.mpr ⟨by linarith, by push_cast; linarith⟩
  simp only [roundHalfEven, hf]
  rw [if_neg (by linarith), if_pos (by linarith)]

theorem roundHalfEven_eq_of_tie_even (q : ℚ) (f : ℤ) (h1 : q - f = 1/2)
    (h2 : f % 2 = 0) : roundHalfEven q = f := by
  have hf : ⌊q⌋ = f := Int.floor_eq_iff.mpr ⟨by linarith, by push_cast; linarith⟩
  simp only [roundHalfEven, hf]
  rw [if_neg (by linarith), if_neg (by linarith), if_pos h2]

theorem roundHalfEven_intCast (n : ℤ) : roundHalfEven (n : ℚ) = n :=
  roundHalfEven_eq_of_lt_half _ n le_rfl (by norm_num)

theorem abs_pyRound_sub (q : ℚ) (nd : ℕ) :
    |pyRound q nd - q| ≤ 1 / (2 * 10 ^ nd) := by
  have h10 : (0:ℚ) < 10 ^ nd := by positivity
  have h := abs_roundHalfEven_sub (q * 10 ^ nd)
  have hrw : pyRound q nd - q =
      ((roundHalfEven (q * 10 ^ nd) : ℚ) - q * 10 ^ nd) / 10 ^ nd := by
    rw [pyRound]
    field_simp
    ring
  rw [hrw, abs_div, abs_of_pos h10,
    show (1:ℚ) / (2 * 10 ^ nd) = (1/2) / 10 ^ nd by ring]
  exact div_le_div_of_nonneg_right h h10.le

theorem pyRound_le_of_le (q b : ℚ) (nd : ℕ) (m : ℤ) (hb : b * 10 ^ nd = m)
    (h : q ≤ b) : pyRound q nd ≤ b := by
  have h10 : (0:ℚ) < 10 ^ nd := by positivity
  have hle : q * 10 ^ nd ≤ (m : ℚ) := by
    rw [← hb]
    exact mul_le_mul_of_nonneg_right h h10.le
  have hceil : roundHalfEven (q * 10 ^ nd) ≤ m := by
    have := roundHalfEven_le_ceil (q * 10 ^ nd)
    have hcm : ⌈q * 10 ^ nd⌉ ≤ m := Int.ceil_le.mpr hle
    omega
  rw [pyRound, div_le_iff h10, hb]
  exact_mod_cast hceil

theorem le_pyRound_of_le (q c : ℚ) (nd : ℕ) (m : ℤ) (hc : c * 10 ^ nd = m)
    (h : c ≤ q) : c ≤ pyRound q nd := by
  have h10 : (0:ℚ) < 10 ^ nd := by positivity
  have hle : (m : ℚ) ≤ q * 10 ^ nd := by
    rw [← hc]
    exact mul_le_mul_of_nonneg_right h h10.le
  have hfl : m ≤ roundHalfEven (q * 10 ^ nd) := by
    have := floor_le_roundHalfEven (q * 10 ^ nd)
    have hmf : m ≤ ⌊q * 10 ^ nd⌋ := Int.le_floor.mpr hle
    omega
  rw [pyRound, le_div_iff h10, hc]
  exact_mod_cast hfl

/-! ### Grouping lemmas -/

theorem group_bucket_add_same (gs : List ((String × String) × List CheckResult))
    (key : String × String) (r : CheckResult) :
    group_bucket (add_to_group gs key r) key = group_bucket gs key ++ [r] := by
  induction gs with
  | nil => simp [add_to_group, group_bucket]
  | cons g gs ih =>
      by_cases h : g.1 == key
      · simp [add_to_group, h, group_bucket, List.find?_cons_of_pos]
      · simp only [add_to_group, h, if_neg, Bool.false_eq_true, if_false]
        simpa [group_bucket, List.find?_cons_of_neg, h] using ih

theorem group_bucket_add_other (gs : List ((String × String) × List CheckResult))
    (key key' : String × String) (r : CheckResult) (hne : key' ≠ key) :
    group_bucket (add_to_group gs key r) key' = group_bucket gs key' := by
  have hkk : ((key : String × String) == key') = false := by
    simp [beq_eq_false_iff_ne]
    exact fun h => hne h.symm
  induction gs with
  | nil => simp [add_to_group, group_bucket, hkk]
  | cons g gs ih =>
      by_cases h : g.1 == key
      · have hgk : g.1 = key := by simpa using h
        have hg' : (g.1 == key') = false := by
          simp [beq_eq_false_iff_ne, hgk]
          exact fun h => hne h.symm
        simp [add_to_group, h, group_bucket, List.find?_cons_of_neg, hg']
      · by_cases h' : g.1 == key'
        · simp [add_to_group, h, group_bucket, List.find?_cons_of_pos, h']
        · simp only [add_to_group, h, Bool.false_eq_true, if_false]
          simpa [group_bucket, List.find?_cons_of_neg, h'] using ih

theorem group_bucket_build_aux (results : List CheckResult) (key : String × String) :
    ∀ gs, group_bucket
        (results.foldl
          (fun gs r =>
            if r.should_notify then add_to_group gs (r.email, r.product_name) r
            else gs)
          gs) key
      = group_bucket gs key ++
          results.filter
            (fun r => r.should_notify && ((r.email, r.product_name) == key)) := by
  induction results with
  | nil => intro gs; simp
  | cons r rs ih =>
      intro gs
      simp only [List.foldl_cons, List.filter_cons]
      cases hn : r.should_notify with
      | false =>
          rw [if_neg (by simp [hn]), if_neg (by simp [hn])]
          exact ih gs
      | true =>
          by_cases hk : (r.email, r.product_name) = key
          · subst hk
            rw [if_pos rfl, if_pos (by simp), ih, group_bucket_add_same]
            simp
          · have hkb : ((r.email, r.product_name) == key) = false := by
              simpa [beq_eq_false_iff_ne] using hk
            rw [if_pos rfl, if_neg (by simp [hkb]), ih,
              group_bucket_add_other _ _ _ _ (Ne.symm hk)]

theorem group_bucket_build (results : List CheckResult) (key : String × String) :
    group_bucket (build_groups results) key =
      results.filter
        (fun r => r.should_notify && ((r.email, r.product_name) == key)) := by
  have h := group_bucket_build_aux results key []
  simpa [build_groups, group_bucket] using h

theorem keys_add_to_group (gs : List ((String × String) × List CheckResult))
    (key : String × String) (r : CheckResult) :
    (add_to_group gs key r).map (fun g => g.1) =
      if gs.any (fun g => g.1 == key) then gs.map (fun g => g.1)
      else gs.map (fun g => g.1) ++ [key] := by
  induction gs with
  | nil => simp [add_to_group]
  | cons g gs ih =>
      by_cases h : g.1 == key
      · simp [add_to_group, h, List.any_cons]
      · simp only [add_to_group, h, Bool.false_eq_true, if_false, List.map_cons,
          List.any_cons, Bool.false_or, ih]
        split <;> simp

theorem keys_nodup_add (gs : List ((String × String) × List CheckResult))
    (key : String × String) (r : CheckResult)
    (h : (gs.map (fun g => g.1)).Nodup) :
    ((add_to_group gs key r).map (fun g => g.1)).Nodup := by
  rw [keys_add_to_group]
  split
  · exact h
  · rename_i hany
    have hnot : key ∉ gs.map (fun g => g.1) := by
      intro hmem
      apply hany
      rw [List.any_eq_true]
      obtain ⟨g, hg, hgk⟩ := List.mem_map.mp hmem
      exact ⟨g, hg, by simp [hgk]⟩
    simp [List.nodup_append, h, hnot]

theorem keys_nodup_build (results : List CheckResult) :
    ((build_groups results).map (fun g => g.1)).Nodup := by
  rw [build_groups]
  have aux : ∀ (rs : List CheckResult)
      (gs : List ((String × String) × List CheckResult)),
      (gs.map (fun g => g.1)).Nodup →
        ((rs.foldl
            (fun gs r =>
              if r.should_notify then add_to_group gs (r.email, r.product_name) r
              else gs)
            gs).map (fun g => g.1)).Nodup := by
    intro rs
    induction rs with
    | nil => intro gs h; simpa using h
    | cons r rs ih =>
        intro gs h
        rw [List.foldl_cons]
        cases hn : r.should_notify with
        | false => rw [if_neg (by simp [hn])]; exact ih gs h
        | true => rw [if_pos rfl]; exact ih _ (keys_nodup_add gs _ r h)
  exact aux results [] (by simp)

theorem countP_key_eq_one (key : String × String) :
    ∀ (gs : List ((String × String) × List CheckResult)),
      (gs.map (fun g => g.1)).Nodup →
      ∀ g0, gs.find? (fun g => g.1 == key) = some g0 →
      gs.countP (fun g => g.1 == key) = 1 := by
  intro gs
  induction gs with
  | nil => intro _ g0 h; simp at h
  | cons g gs ih =>
      intro hnd g0 hf
      rw [List.countP_cons]
      by_cases h : (g.1 == key) = true
      · have hgk : g.1 = key := by simpa using h
        have hout : key ∉ gs.map (fun x => x.1) := by
          have := hnd
          rw [List.map_cons, List.nodup_cons] at this
          exact hgk ▸ this.1
        have hzero : gs.countP (fun x => x.1 == key) = 0 := by
          rw [List.countP_eq_zero]
          intro a ha hak
          exact hout (List.mem_map.mpr ⟨a, ha, by simpa using hak⟩)
        simp [hzero, h]
      · rw [List.find?_cons_of_neg _ (by simpa using h)] at hf
        have hnd2 : (gs.map (fun x => x.1)).Nodup := by
          rw [List.map_cons, List.nodup_cons] at hnd
          exact hnd.2
        rw [ih hnd2 g0 hf]
        simp [h]

/-! ### Dispatch lemmas -/

theorem dispatch_foldl_char (now : ℚ) (send_ok : String → String → Bool) :
    ∀ (groups : List ((String × String) × List CheckResult)) (ws : List Watch)
      (n : Nat),
      groups.foldl
        (fun acc g =>
          if send_ok g.1.1 g.1.2 then
            (stamp_group acc.1 (g.2.map (fun r => r.watch_id)) now, acc.2 + 1)
          else acc)
        (ws, n)
      = ( ws.map (fun w =>
            if groups.any (fun g =>
                send_ok g.1.1 g.1.2 &&
                  (g.2.map (fun r => r.watch_id)).contains w.id) then
              { w with last_notified_at := some now }
            else w)
        , n + groups.countP (fun g => send_ok g.1.1 g.1.2)) := by
  intro groups
  induction groups with
  | nil => intro ws n; simp
  | cons g gs ih =>
      intro ws n
      rw [List.foldl_cons, List.countP_cons]
      cases hs : send_ok g.1.1 g.1.2 with
      | false =>
          rw [if_neg (by simp [hs]), ih ws n]
          simp only [Prod.mk.injEq]
          refine ⟨?_, by simp [hs]⟩
          have hfun : (fun (w : Watch) =>
              if (g :: gs).any (fun g =>
                  send_ok g.1.1 g.1.2 &&
                    (g.2.map (fun r => r.watch_id)).contains w.id) then
                { w with last_notified_at := some now }
              else w)
            = (fun (w : Watch) =>
              if gs.any (fun g =>
                  send_ok g.1.1 g.1.2 &&
                    (g.2.map (fun r => r.watch_id)).contains w.id) then
                { w with last_notified_at := some now }
              else w) := by
            funext w
            rw [List.any_cons, hs]
            rw [Bool.false_and, Bool.false_or]
          rw [hfun]
      | true =>
          rw [if_pos rfl, ih]
          simp only [Prod.mk.injEq]
          refine ⟨?_, by simp [hs]; omega⟩
          rw [stamp_group, List.map_map]
          apply List.map_congr_left
          intro w _
          simp only [Function.comp]
          by_cases hm : (g.2.map (fun r => r.watch_id)).contains w.id = true
          · rw [if_pos hm, List.any_cons]
            simp only [hs, hm, Bool.and_self, Bool.true_and, Bool.true_or, if_true]
            have hid : ({ w with last_notified_at := some now } : Watch).id = w.id := rfl
            split <;> rfl
          · rw [if_neg hm, List.any_cons]
            simp only [hs, Bool.true_and]
            rw [Bool.not_eq_true] at hm
            rw [hm, Bool.false_or]

/-! ### Checker lemmas -/

theorem check_watch_ready (products : List Product) (w : Watch) (now : ℚ)
    (p : Product) (hf : products.find? (fun q => q.id == w.product_id) = some p)
    (ht : w.threshold_met p = true) (hc : is_cooldown_expired w now = true) :
    check_watch products w now = .ok (ready_result w p) := by
  rw [check_watch, hf]
  simp [ht, hc]

theorem update_product_price_fst_id (sale_events : List SaleEvent) (p : Product)
    (now pc : ℚ) : (update_product_price sale_events p now pc).1.id = p.id := by
  rw [update_product_price]
  cases get_active_sale sale_events p.id now <;> rfl

theorem update_product_price_no_sale (sale_events : List SaleEvent) (p : Product)
    (now pc : ℚ) (h : get_active_sale sale_events p.id now = none) :
    (update_product_price sale_events p now pc).1.current_price =
        apply_random_fluctuation p pc ∧
      (update_product_price sale_events p now pc).1.base_price = p.base_price ∧
      (update_product_price sale_events p now pc).2 = false := by
  rw [update_product_price, h]
  exact ⟨rfl, rfl, rfl⟩

theorem mapM_check_watch_ok (products : List Product) (now : ℚ) :
    ∀ (l : List Watch),
      (∀ w ∈ l, ∃ p ∈ products, p.id = w.product_id) →
      ∃ rs, l.mapM (fun w => check_watch products w now) = .ok rs := by
  intro l
  induction l with
  | nil => exact fun _ => ⟨[], rfl⟩
  | cons w l ih =>
      intro h
      obtain ⟨p, hp, hpid⟩ := h w (List.mem_cons_self w l)
      have hfind : (products.find? (fun q => q.id == w.product_id)).isSome := by
        rw [List.find?_isSome]
        exact ⟨p, hp, by simp [hpid]⟩
      obtain ⟨p0, hp0⟩ := Option.isSome_iff_exists.mp hfind
      have hr : ∃ r, check_watch products w now = .ok r := by
        by_cases h1 : w.threshold_met p0 = true
        · by_cases h2 : is_cooldown_expired w now = true
          · exact ⟨ready_result w p0, check_watch_ready products w now p0 hp0 h1 h2⟩
          · have h2f : is_cooldown_expired w now = false := by simpa using h2
            refine ⟨{ base_result w p0 with
                        threshold_met := true, reason := "Cooldown active" }, ?_⟩
            rw [check_watch, hp0]
            simp [h1, h2f]
        · have h1f : w.threshold_met p0 = false := by simpa using h1
          refine ⟨{ base_result w p0 with reason := "Threshold not met" }, ?_⟩
          rw [check_watch, hp0]
          simp [h1f]
      obtain ⟨r, hr⟩ := hr
      obtain ⟨rs, hrs⟩ := ih (fun x hx => h x (List.mem_cons_of_mem _ hx))
      refine ⟨r :: rs, ?_⟩
      rw [List.mapM_cons, hr, hrs]
      rfl

/-! ### Claim theorems -/

/-- Claim C3: for every watch and every time `now`, the cooldown gate
returns true if and only if `last_notified_at` is null or
`now >= last_notified_at + 3 days`; in particular a watch with
`last_notified_at = null` is never blocked by the cooldown gate. -/
theorem cooldown_gate_iff (w : Watch) (now : ℚ) :
    (is_cooldown_expired w now = true ↔
      (w.last_notified_at = none ∨
        ∃ t, w.last_notified_at = some t ∧
          t + NOTIFICATION_COOLDOWN_DAYS ≤ now)) ∧
    (w.last_notified_at = none → is_cooldown_expired w now = true) := by
  constructor
  · cases hl : w.last_notified_at with
    | none => simp [is_cooldown_expired, hl]
    | some t => simp [is_cooldown_expired, hl, ge_iff_le]
  · intro h
    simp [is_cooldown_expired, h]

/-- Claim C4: the threshold evaluator is a pure function of the watch and
product; a `percent` watch fires exactly when
`discount_percent >= threshold_value`, an `absolute` watch fires exactly
when `current_price <= threshold_value`, and `discount_percent` is
`round((1 - current_price / base_price) * 100, 1)` and `0` when
`base_price <= 0`. -/
theorem threshold_evaluator_char (w : Watch) (p : Product) :
    (w.threshold_type = "percent" →
      (w.threshold_met p = true ↔ w.threshold_value ≤ p.discount_percent)) ∧
    (w.threshold_type = "absolute" →
      (w.threshold_met p = true ↔ p.current_price ≤ w.threshold_value)) ∧
    p.discount_percent =
      (if p.base_price ≤ 0 then 0
       else pyRound ((1 - p.current_price / p.base_price) * 100) 1) := by
  refine ⟨?_, ?_, rfl⟩
  · intro h
    simp [Watch.threshold_met, h, ge_iff_le]
  · intro h
    have hne : ¬ w.threshold_type = "percent" := by
      rw [h]
      decide
    simp [Watch.threshold_met, hne]

/-- Claim C4 witness: a concrete `percent` watch fires exactly when the
discount reaches the threshold. -/
theorem threshold_evaluator_char_witness :
    Watch.threshold_met
        { id := 1, email := "a@x", product_id := 1, threshold_type := "percent"
        , threshold_value := 20, created_at := 0, last_notified_at := none }
        { id := 1, name := "PS5", category := "gaming", retailer := "Walmart"
        , base_price := 400, current_price := 300, last_updated := 0 } = true ↔
      (20 : ℚ) ≤ Product.discount_percent
        { id := 1, name := "PS5", category := "gaming", retailer := "Walmart"
        , base_price := 400, current_price := 300, last_updated := 0 } :=
  (threshold_evaluator_char _ _).1 rfl

/-- Claim C10: for every watch whose `threshold_type` is anything other
than `percent` (not only `absolute`), the evaluator applies the absolute
rule: it fires exactly when `current_price <= threshold_value`. -/
theorem threshold_fallback_absolute (w : Watch) (p : Product)
    (h : w.threshold_type ≠ "percent") :
    (w.threshold_met p = true ↔ p.current_price ≤ w.threshold_value) := by
  simp [Watch.threshold_met, h]

/-- Claim C10 witness: a watch with the unrecognized threshold type
`bogus` is evaluated with the absolute rule. -/
theorem threshold_fallback_absolute_witness :
    Watch.threshold_met
        { id := 1, email := "a@x", product_id := 1, threshold_type := "bogus"
        , threshold_value := 350, created_at := 0, last_notified_at := none }
        { id := 1, name := "PS5", category := "gaming", retailer := "Walmart"
        , base_price := 400, current_price := 300, last_updated := 0 } = true ↔
      (300 : ℚ) ≤ (350 : ℚ) :=
  threshold_fallback_absolute _ _ (by decide)

/-- Claim C9: `check_single_product` (the spec's
`check_watches_for_product`) returns the per-watch diagnostics of the
watches of the given product and is read-only: the database state —
products, watches (hence every `last_notified_at`, `current_price`,
`last_updated`) and sale events — is returned unchanged. -/
theorem check_single_product_readonly (db : DB) (product_id : Nat) (now : ℚ) :
    (check_single_product db product_id now).2 = db ∧
    (check_single_product db product_id now).1 =
      (db.watches.filter (fun w => w.product_id == product_id)).mapM
        (fun w => check_watch db.products w now) ∧
    (check_single_product db product_id now).2.products = db.products ∧
    (check_single_product db product_id now).2.watches = db.watches ∧
    (check_single_product db product_id now).2.sale_events = db.sale_events :=
  ⟨rfl, rfl, rfl, rfl, rfl⟩

/-- Claim C6: the dispatch loop processes every group independently: a
watch ends up stamped with `last_notified_at = now` exactly when some
group containing it was sent successfully, every watch whose groups all
failed keeps its previous `last_notified_at` unchanged, the loop never
raises (the notifier reports failure as a boolean), and the number of
notifications sent is the number of successful groups. -/
theorem dispatch_failure_isolation (ws : List Watch)
    (groups : List ((String × String) × List CheckResult)) (now : ℚ)
    (send_ok : String → String → Bool) :
    dispatch_groups ws groups now send_ok
      = ( ws.map (fun w =>
            if groups.any (fun g => send_ok g.1.1 g.1.2 &&
                (g.2.map (fun r => r.watch_id)).contains w.id) then
              { w with last_notified_at := some now }
            else w)
        , groups.countP (fun g => send_ok g.1.1 g.1.2)) := by
  rw [dispatch_groups, dispatch_foldl_char]
  simp

/-- Claim C2: if a sale event whose date range contains `now` exists for
a product, then after the price update the product's `current_price`
equals the `sale_price` of an active sale event of that product (the
first one in query order) and the update is marked sale-driven,
regardless of the random-walk draw. -/
theorem sale_precedence (sale_events : List SaleEvent) (p : Product)
    (now pc : ℚ)
    (h : ∃ s ∈ sale_events,
      s.product_id = p.id ∧ s.start_date ≤ now ∧ now ≤ s.end_date) :
    ∃ s ∈ sale_events,
      s.product_id = p.id ∧ s.start_date ≤ now ∧ now ≤ s.end_date ∧
      (update_product_price sale_events p now pc).1.current_price =
        s.sale_price ∧
      (update_product_price sale_events p now pc).2 = true := by
  have hsome : (get_active_sale sale_events p.id now).isSome := by
    rw [get_active_sale, List.find?_isSome]
    obtain ⟨s, hs, h1, h2, h3⟩ := h
    exact ⟨s, hs, by simp [h1, h2, h3]⟩
  obtain ⟨s, hs⟩ := Option.isSome_iff_exists.mp hsome
  have hs' : sale_events.find? (fun s =>
      s.product_id == p.id && decide (s.start_date ≤ now) &&
        decide (s.end_date ≥ now)) = some s := by
    rw [get_active_sale] at hs
    exact hs
  have hmem := List.mem_of_find?_eq_some hs'
  have hpred := List.find?_some hs'
  simp only [Bool.and_eq_true, beq_iff_eq, decide_eq_true_eq] at hpred
  refine ⟨s, hmem, hpred.1.1, hpred.1.2, hpred.2, ?_, ?_⟩ <;>
    rw [update_product_price, hs]

/-- Claim C2 witness: a concrete active sale overrides the random walk. -/
theorem sale_precedence_witness :
    ∃ s ∈ [({ id := 1, product_id := 1, sale_price := 300, start_date := 0
            , end_date := 10 } : SaleEvent)],
      s.product_id =
        ({ id := 1, name := "PS5", category := "gaming", retailer := "Walmart"
         , base_price := 400, current_price := 400, last_updated := 0 } : Product).id ∧
      s.start_date ≤ 5 ∧ (5:ℚ) ≤ s.end_date ∧
      (update_product_price
          [{ id := 1, product_id := 1, sale_price := 300, start_date := 0
           , end_date := 10 }]
          { id := 1, name := "PS5", category := "gaming", retailer := "Walmart"
          , base_price := 400, current_price := 400, last_updated := 0 }
          5 (-3)).1.current_price = s.sale_price ∧
      (update_product_price
          [{ id := 1, product_id := 1, sale_price := 300, start_date := 0
           , end_date := 10 }]
          { id := 1, name := "PS5", category := "gaming", retailer := "Walmart"
          , base_price := 400, current_price := 400, last_updated := 0 }
          5 (-3)).2 = true :=
  sale_precedence _ _ 5 (-3)
    ⟨_, List.mem_singleton_self _, rfl, by norm_num, by norm_num⟩

/-- Claim C1 counterexample: an active sale event is written verbatim,
with no clamping, so a sale price above `base_price` violates the claimed
bound `current_price <= base_price` after the update.  Concrete input:
product with `base_price = 100`, `current_price = 100`, one sale event at
`sale_price = 150` active at `now = 5`. -/
theorem price_bounds_sale_counterexample :
    (update_product_price
        [{ id := 1, product_id := 1, sale_price := 150, start_date := 0
         , end_date := 10 }]
        { id := 1, name := "TV", category := "tv", retailer := "Walmart"
        , base_price := 100, current_price := 100, last_updated := 0 }
        5 0).1.current_price = 150 ∧
    ({ id := 1, name := "TV", category := "tv", retailer := "Walmart"
     , base_price := 100, current_price := 100, last_updated := 0 } : Product).base_price
      = 100 ∧
    ¬ ((update_product_price
        [{ id := 1, product_id := 1, sale_price := 150, start_date := 0
         , end_date := 10 }]
        { id := 1, name := "TV", category := "tv", retailer := "Walmart"
        , base_price := 100, current_price := 100, last_updated := 0 }
        5 0).1.current_price ≤
      ({ id := 1, name := "TV", category := "tv", retailer := "Walmart"
       , base_price := 100, current_price := 100, last_updated := 0 } : Product).base_price) := by
  refine ⟨rfl, rfl, ?_⟩
  intro h
  rw [show (update_product_price
        [{ id := 1, product_id := 1, sale_price := 150, start_date := 0
         , end_date := 10 }]
        { id := 1, name := "TV", category := "tv", retailer := "Walmart"
        , base_price := 100, current_price := 100, last_updated := 0 }
        5 0).1.current_price = 150 from rfl] at h
  norm_num at h

/-- Claim C1 (amended): after a price update that came from the random
walk (no active sale event), a product with nonnegative `base_price` has
`current_price` within half a cent of `[0.5 * base_price, base_price]`,
and exactly inside `[0.5 * base_price, base_price]` whenever
`base_price` is a whole, even number of cents (so that both clamp bounds
are representable at two decimals).  Sale-driven updates are not clamped
at all (see the counterexample). -/
theorem price_bounds_random_walk (sale_events : List SaleEvent) (p : Product)
    (now pc : ℚ) (hb : 0 ≤ p.base_price)
    (hs : get_active_sale sale_events p.id now = none) :
    (p.base_price * (1/2) - 1/200 ≤
        (update_product_price sale_events p now pc).1.current_price ∧
      (update_product_price sale_events p now pc).1.current_price ≤
        p.base_price + 1/200) ∧
    ((∃ n : ℤ, p.base_price * 50 = (n : ℚ)) →
      p.base_price * (1/2) ≤
          (update_product_price sale_events p now pc).1.current_price ∧
        (update_product_price sale_events p now pc).1.current_price ≤
          p.base_price) := by
  obtain ⟨hcp, hbp, hflag⟩ := update_product_price_no_sale sale_events p now pc hs
  rw [hcp]
  set v := max (min (p.current_price * (1 + pc / 100)) p.base_price)
    (p.base_price * (1/2)) with hv
  have h1 : p.base_price * (1/2) ≤ v := le_max_right _ _
  have h2 : v ≤ p.base_price := max_le (min_le_right _ _) (by linarith)
  have happ : apply_random_fluctuation p pc = pyRound v 2 := rfl
  rw [happ]
  have hclose := abs_pyRound_sub v 2
  rw [show (1:ℚ) / (2 * 10 ^ 2) = 1/200 by norm_num, abs_le] at hclose
  constructor
  · constructor <;> linarith [hclose.1, hclose.2]
  · rintro ⟨n, hn⟩
    constructor
    · refine le_pyRound_of_le v (p.base_price * (1/2)) 2 n ?_ h1
      push_cast
      linarith [hn]
    · refine pyRound_le_of_le v p.base_price 2 (2 * n) ?_ h2
      push_cast
      linarith [hn]

/-- Claim C1 (amended) witness: a concrete random-driven update stays in
bounds — base price 100, current price 60, zero percent draw. -/
theorem price_bounds_random_walk_witness :
    ((100 : ℚ) * (1/2) - 1/200 ≤
        (update_product_price []
          { id := 1, name := "TV", category := "tv", retailer := "Walmart"
          , base_price := 100, current_price := 60, last_updated := 0 }
          0 0).1.current_price ∧
      (update_product_price []
          { id := 1, name := "TV", category := "tv", retailer := "Walmart"
          , base_price := 100, current_price := 60, last_updated := 0 }
          0 0).1.current_price ≤ (100 : ℚ) + 1/200) ∧
    ((∃ n : ℤ, (100 : ℚ) * 50 = (n : ℚ)) →
      (100 : ℚ) * (1/2) ≤
          (update_product_price []
            { id := 1, name := "TV", category := "tv", retailer := "Walmart"
            , base_price := 100, current_price := 60, last_updated := 0 }
            0 0).1.current_price ∧
        (update_product_price []
            { id := 1, name := "TV", category := "tv", retailer := "Walmart"
            , base_price := 100, current_price := 60, last_updated := 0 }
            0 0).1.current_price ≤ (100 : ℚ)) :=
  price_bounds_random_walk []
    { id := 1, name := "TV", category := "tv", retailer := "Walmart"
    , base_price := 100, current_price := 60, last_updated := 0 }
    0 0 (by norm_num) rfl

/-- Claim C8 (amended): in a random-driven price update the rounding to
two decimals is applied exactly once, after clamping, and it is Python's
rounding — to the nearest whole number of cents with ties going to the
even cent count (half-to-even), not half-away-from-zero. -/
theorem rounding_once_after_clamp_half_even (p : Product) (pc : ℚ) :
    apply_random_fluctuation p pc =
      pyRound (max (min (p.current_price * (1 + pc / 100)) p.base_price)
        (p.base_price * (1/2))) 2 ∧
    ∀ q : ℚ, ∃ n : ℤ,
      pyRound q 2 = (n : ℚ) / 100 ∧
      |q - (n : ℚ) / 100| ≤ 1 / 200 ∧
      (|q - (n : ℚ) / 100| = 1 / 200 → n % 2 = 0) := by
  refine ⟨rfl, ?_⟩
  intro q
  have hrw : q - (roundHalfEven (q * 100) : ℚ) / 100 =
      -(((roundHalfEven (q * 100) : ℚ) - q * 100) / 100) := by
    ring
  refine ⟨roundHalfEven (q * 100), ?_, ?_, ?_⟩
  · rw [pyRound]
    norm_num
  · have h := abs_roundHalfEven_sub (q * 100)
    rw [hrw, abs_neg, abs_div, abs_of_pos (by norm_num : (0:ℚ) < 100)]
    linarith
  · intro htie
    rw [hrw, abs_neg, abs_div, abs_of_pos (by norm_num : (0:ℚ) < 100)] at htie
    have habs : |(roundHalfEven (q * 100) : ℚ) - q * 100| = 1/2 := by
      linarith
    have hfl := Int.floor_le (q * 100)
    have hfu := Int.lt_floor_add_one (q * 100)
    have hfract : q * 100 - ⌊q * 100⌋ = 1/2 := by
      rcases roundHalfEven_cases (q * 100) with hcase | hcase <;>
        rw [hcase] at habs <;>
        rw [abs_eq (by norm_num : (0:ℚ) ≤ 1/2)] at habs <;>
        rcases habs with h | h <;> push_cast at h <;> linarith
    exact roundHalfEven_even_of_tie (q * 100) hfract

/-- Claim C8 counterexample: the claim says rounding is
half-away-from-zero, but the code rounds half-to-even.  Concrete input:
base price 0.20, current price 0.125, zero percent draw; the clamped
pre-rounding value is 0.125, the code produces 0.12 while
half-away-from-zero rounding of the same clamped value produces 0.13. -/
theorem rounding_half_away_counterexample :
    apply_random_fluctuation
        { id := 1, name := "X", category := "c", retailer := "R"
        , base_price := 1/5, current_price := 1/8, last_updated := 0 } 0
      = 3/25 ∧
    roundHalfAwayFromZero
        (max (min ((1/8 : ℚ) * (1 + 0 / 100)) (1/5)) ((1/5 : ℚ) * (1/2))) 2
      = 13/100 ∧
    (3/25 : ℚ) ≠ 13/100 := by
  have harg : (max (min ((1/8 : ℚ) * (1 + 0 / 100)) (1/5)) ((1/5 : ℚ) * (1/2)))
      = 1/8 := by
    rw [show ((1/8 : ℚ) * (1 + 0 / 100)) = 1/8 by norm_num]
    rw [min_eq_left (by norm_num), max_eq_left (by norm_num)]
  refine ⟨?_, ?_, by norm_num⟩
  · show pyRound
        (max (min ((1/8 : ℚ) * (1 + 0 / 100)) (1/5)) ((1/5 : ℚ) * (1/2))) 2
      = 3/25
    rw [harg, pyRound, show (1/8 : ℚ) * 10 ^ 2 = 25/2 by norm_num,
      roundHalfEven_eq_of_tie_even (25/2) 12 (by norm_num) (by decide)]
    norm_num
  · rw [harg, roundHalfAwayFromZero]
    rw [if_pos (by norm_num : (0:ℚ) ≤ (1/8 : ℚ) * 10 ^ 2)]
    rw [show (1/8 : ℚ) * 10 ^ 2 + 1/2 = ((13 : ℤ) : ℚ) by norm_num,
      Int.floor_intCast]
    norm_num

theorem update_all_prices_snd (sale_events : List SaleEvent)
    (products : List Product) (now : ℚ) (draw : Nat → ℚ) :
    (update_all_prices sale_events products now draw).2 =
      products.map (fun p => (update_product_price sale_events p now (draw p.id)).1) := by
  simp only [update_all_prices, List.map_map]
  rfl

/-- Claim C7 counterexample: a watch referencing a missing product makes
the cycle raise (`watch.product` is `None` and the attribute access
raises `AttributeError`); the watch is not skipped and no summary is
produced.  Concrete input: empty catalog, one watch on product id 7. -/
theorem missing_product_aborts_cycle :
    run_price_check
        { products := []
        , watches := [{ id := 1, email := "a@x", product_id := 7
                      , threshold_type := "absolute", threshold_value := 100
                      , created_at := 0, last_notified_at := none }]
        , sale_events := [] } 0 (fun _ => 0) (fun _ _ => true)
      = .error "AttributeError" := by
  rfl

/-- Claim C7 (amended): a watch referencing a missing product aborts the
whole cycle with an unhandled error instead of being skipped with a
diagnostic reason; when every watch references an existing product the
cycle does complete and produce a summary without raising. -/
theorem cycle_ok_of_consistent (db : DB) (now : ℚ) (draw : Nat → ℚ)
    (send_ok : String → String → Bool)
    (h : ∀ w ∈ db.watches, ∃ p ∈ db.products, p.id = w.product_id) :
    ∃ out, run_price_check db now draw send_ok = .ok out := by
  have hprod : ∀ w ∈ db.watches,
      ∃ p ∈ (update_all_prices db.sale_events db.products now draw).2,
        p.id = w.product_id := by
    intro w hw
    obtain ⟨p, hp, hpid⟩ := h w hw
    refine ⟨(update_product_price db.sale_events p now (draw p.id)).1, ?_, ?_⟩
    · rw [update_all_prices_snd]
      exact List.mem_map.mpr ⟨p, hp, rfl⟩
    · rw [update_product_price_fst_id]
      exact hpid
  obtain ⟨rs, hrs⟩ := mapM_check_watch_ok _ now db.watches hprod
  exact ⟨_, by rw [run_price_check, hrs]⟩

/-- Claim C7 (amended) witness: a concrete consistent database completes
the cycle. -/
theorem cycle_ok_of_consistent_witness :
    ∃ out, run_price_check
        { products := [{ id := 1, name := "PS5", category := "gaming"
                       , retailer := "Walmart", base_price := 400
                       , current_price := 400, last_updated := 0 }]
        , watches := [{ id := 1, email := "a@x", product_id := 1
                      , threshold_type := "absolute", threshold_value := 100
                      , created_at := 0, last_notified_at := none }]
        , sale_events := [] } 0 (fun _ => 0) (fun _ _ => true)
      = .ok out := by
  refine cycle_ok_of_consistent _ 0 _ _ ?_
  intro w hw
  rw [List.mem_singleton] at hw
  subst hw
  exact ⟨_, List.mem_singleton_self _, rfl⟩

/-- Claim C5: two watches by the same recipient on products with the same
name at different retailers that both fire and pass the cooldown gate are
collected into exactly one notification group for that
(recipient, product-name) pair — the dispatch loop issues one send per
group — and the rendered multi-retailer message contains both deals,
ordered ascending by current price, with the cheapest price as the
subject headline. -/
theorem grouped_notification_single_call
    (products : List Product) (w1 w2 : Watch) (p1 p2 : Product)
    (now : ℚ) (results : List CheckResult)
    (hf1 : products.find? (fun q => q.id == w1.product_id) = some p1)
    (hf2 : products.find? (fun q => q.id == w2.product_id) = some p2)
    (ht1 : w1.threshold_met p1 = true) (ht2 : w2.threshold_met p2 = true)
    (hc1 : is_cooldown_expired w1 now = true)
    (hc2 : is_cooldown_expired w2 now = true)
    (hemail : w1.email = w2.email) (hname : p1.name = p2.name)
    (hretail : p1.retailer ≠ p2.retailer)
    (hm1 : ready_result w1 p1 ∈ results)
    (hm2 : ready_result w2 p2 ∈ results) :
    check_watch products w1 now = .ok (ready_result w1 p1) ∧
    check_watch products w2 now = .ok (ready_result w2 p2) ∧
    (build_groups results).countP (fun g => g.1 == (w1.email, p1.name)) = 1 ∧
    ready_result w1 p1 ∈
      group_bucket (build_groups results) (w1.email, p1.name) ∧
    ready_result w2 p2 ∈
      group_bucket (build_groups results) (w1.email, p1.name) ∧
    ∃ em, em = build_multi_retailer_email p1.name
        ((group_bucket (build_groups results) (w1.email, p1.name)).map
          deal_of_result)
        w1.threshold_type w1.threshold_value ∧
      em.deals_sorted.Perm
        ((group_bucket (build_groups results) (w1.email, p1.name)).map
          deal_of_result) ∧
      em.deals_sorted.Pairwise (fun a b => a.current_price ≤ b.current_price) ∧
      deal_of_result (ready_result w1 p1) ∈ em.deals_sorted ∧
      deal_of_result (ready_result w2 p2) ∈ em.deals_sorted ∧
      ∃ d0, em.deals_sorted.head? = some d0 ∧
        em.subject_price = d0.current_price ∧
        ∀ d ∈ em.deals_sorted, d0.current_price ≤ d.current_price := by
  have hready1 := check_watch_ready products w1 now p1 hf1 ht1 hc1
  have hready2 := check_watch_ready products w2 now p2 hf2 ht2 hc2
  have hbucket : group_bucket (build_groups results) (w1.email, p1.name) =
      results.filter (fun r =>
        r.should_notify && ((r.email, r.product_name) == (w1.email, p1.name))) :=
    group_bucket_build results (w1.email, p1.name)
  have hmem1 : ready_result w1 p1 ∈
      group_bucket (build_groups results) (w1.email, p1.name) := by
    rw [hbucket]
    refine List.mem_filter.mpr ⟨hm1, ?_⟩
    simp [ready_result, base_result]
  have hmem2 : ready_result w2 p2 ∈
      group_bucket (build_groups results) (w1.email, p1.name) := by
    rw [hbucket]
    refine List.mem_filter.mpr ⟨hm2, ?_⟩
    simp [ready_result, base_result, hemail, hname]
  have hfind : ∃ g0, (build_groups results).find?
      (fun g => g.1 == (w1.email, p1.name)) = some g0 := by
    cases hf : (build_groups results).find?
        (fun g => g.1 == (w1.email, p1.name)) with
    | some g0 => exact ⟨g0, rfl⟩
    | none =>
        exfalso
        have hempty : group_bucket (build_groups results) (w1.email, p1.name)
            = [] := by
          simp [group_bucket, hf]
        rw [hempty] at hmem1
        exact absurd hmem1 (List.not_mem_nil _)
  obtain ⟨g0, hg0⟩ := hfind
  have hcount : (build_groups results).countP
      (fun g => g.1 == (w1.email, p1.name)) = 1 :=
    countP_key_eq_one (w1.email, p1.name) _ (keys_nodup_build results) g0 hg0
  refine ⟨hready1, hready2, hcount, hmem1, hmem2, ?_⟩
  refine ⟨_, rfl, ?_, ?_, ?_, ?_, ?_⟩
  case _ =>
    exact List.mergeSort_perm _ _
  case _ =>
    have hsorted := @List.sorted_mergeSort Deal
      (fun a b : Deal => decide (a.current_price ≤ b.current_price))
      (fun a b c hab hbc =>
        decide_eq_true (le_trans (of_decide_eq_true hab) (of_decide_eq_true hbc)))
      (fun a b => by
        rcases le_total a.current_price b.current_price with h | h <;> simp [h])
      ((group_bucket (build_groups results) (w1.email, p1.name)).map
        deal_of_result)
    exact hsorted.imp (fun h => of_decide_eq_true h)
  case _ =>
    exact (List.mergeSort_perm _ _).mem_iff.mpr
      (List.mem_map.mpr ⟨ready_result w1 p1, hmem1, rfl⟩)
  case _ =>
    exact (List.mergeSort_perm _ _).mem_iff.mpr
      (List.mem_map.mpr ⟨ready_result w2 p2, hmem2, rfl⟩)
  case _ =>
    have hsorted := @List.sorted_mergeSort Deal
      (fun a b : Deal => decide (a.current_price ≤ b.current_price))
      (fun a b c hab hbc =>
        decide_eq_true (le_trans (of_decide_eq_true hab) (of_decide_eq_true hbc)))
      (fun a b => by
        rcases le_total a.current_price b.current_price with h | h <;> simp [h])
      ((group_bucket (build_groups results) (w1.email, p1.name)).map
        deal_of_result)
    have hne : ((group_bucket (build_groups results) (w1.email, p1.name)).map
        deal_of_result).mergeSort
          (fun a b : Deal => decide (a.current_price ≤ b.current_price)) ≠ [] := by
      intro h0
      have hlen := (List.mergeSort_perm
        ((group_bucket (build_groups results) (w1.email, p1.name)).map
          deal_of_result)
        (fun a b : Deal => decide (a.current_price ≤ b.current_price))).length_eq
      rw [h0] at hlen
      have : ((group_bucket (build_groups results) (w1.email, p1.name)).map
          deal_of_result) = [] :=
        List.length_eq_zero.mp hlen.symm
      have hmm : deal_of_result (ready_result w1 p1) ∈
          (group_bucket (build_groups results) (w1.email, p1.name)).map
            deal_of_result :=
        List.mem_map.mpr ⟨ready_result w1 p1, hmem1, rfl⟩
      rw [this] at hmm
      exact absurd hmm (List.not_mem_nil _)
    obtain ⟨d0, tl, hcons⟩ := List.exists_cons_of_ne_nil hne
    refine ⟨d0, ?_, ?_, ?_⟩
    · show (((group_bucket (build_groups results) (w1.email, p1.name)).map
          deal_of_result).mergeSort
            (fun a b : Deal => decide (a.current_price ≤ b.current_price))).head?
        = some d0
      rw [hcons]
      rfl
    · show ((((group_bucket (build_groups results) (w1.email, p1.name)).map
          deal_of_result).mergeSort
            (fun a b : Deal =>
              decide (a.current_price ≤ b.current_price))).head?.map
          (fun d => d.current_price)).getD 0 = d0.current_price
      rw [hcons]
      rfl
    · intro d hd
      have hd' : d ∈ d0 :: tl := by
        rw [← hcons]
        exact hd
      rw [hcons] at hsorted
      rcases List.mem_cons.mp hd' with h | h
      · rw [h]
      · exact of_decide_eq_true ((List.pairwise_cons.mp hsorted).1 d h)

/-- Claim C5 witness: two concrete watches of one recipient on the same
product name at Walmart and Target, both firing, produce exactly one
group for that recipient and product name. -/
theorem grouped_notification_single_call_witness :
    (build_groups
        [ ready_result
            { id := 11, email := "a@x", product_id := 1
            , threshold_type := "absolute", threshold_value := 350
            , created_at := 0, last_notified_at := none }
            { id := 1, name := "PS5", category := "gaming"
            , retailer := "Walmart", base_price := 400, current_price := 300
            , last_updated := 0 }
        , ready_result
            { id := 12, email := "a@x", product_id := 2
            , threshold_type := "absolute", threshold_value := 350
            , created_at := 0, last_notified_at := none }
            { id := 2, name := "PS5", category := "gaming"
            , retailer := "Target", base_price := 400, current_price := 280
            , last_updated := 0 } ]).countP
      (fun g => g.1 == ("a@x", "PS5")) = 1 :=
  (grouped_notification_single_call
    [ { id := 1, name := "PS5", category := "gaming", retailer := "Walmart"
      , base_price := 400, current_price := 300, last_updated := 0 }
    , { id := 2, name := "PS5", category := "gaming", retailer := "Target"
      , base_price := 400, current_price := 280, last_updated := 0 } ]
    { id := 11, email := "a@x", product_id := 1
    , threshold_type := "absolute", threshold_value := 350
    , created_at := 0, last_notified_at := none }
    { id := 12, email := "a@x", product_id := 2
    , threshold_type := "absolute", threshold_value := 350
    , created_at := 0, last_notified_at := none }
    { id := 1, name := "PS5", category := "gaming", retailer := "Walmart"
    , base_price := 400, current_price := 300, last_updated := 0 }
    { id := 2, name := "PS5", category := "gaming", retailer := "Target"
    , base_price := 400, current_price := 280, last_updated := 0 }
    0
    [ ready_result
        { id := 11, email := "a@x", product_id := 1
        , threshold_type := "absolute", threshold_value := 350
        , created_at := 0, last_notified_at := none }
        { id := 1, name := "PS5", category := "gaming"
        , retailer := "Walmart", base_price := 400, current_price := 300
        , last_updated := 0 }
    , ready_result
        { id := 12, email := "a@x", product_id := 2
        , threshold_type := "absolute", threshold_value := 350
        , created_at := 0, last_notified_at := none }
        { id := 2, name := "PS5", category := "gaming"
        , retailer := "Target", base_price := 400, current_price := 280
        , last_updated := 0 } ]
    rfl rfl (by decide) (by decide) rfl rfl rfl rfl (by decide)
    (List.mem_cons_self _ _)
    (List.mem_cons_of_mem _ (List.mem_singleton_self _))).2.2.1

/-- Claim C3 witness: a concrete never-notified watch passes the cooldown
gate. -/
theorem cooldown_gate_iff_witness :
    is_cooldown_expired
        { id := 1, email := "a@x", product_id := 1
        , threshold_type := "absolute", threshold_value := 100
        , created_at := 0, last_notified_at := none } 5 = true :=
  (cooldown_gate_iff
    { id := 1, email := "a@x", product_id := 1
    , threshold_type := "absolute", threshold_value := 100
    , created_at := 0, last_notified_at := none } 5).2 rfl

/-- Claim C8 (amended) witness: the rounding of a concrete random-driven
update is applied once, after clamping. -/
theorem rounding_once_after_clamp_half_even_witness :
    apply_random_fluctuation
        { id := 1, name := "TV", category := "tv", retailer := "Walmart"
        , base_price := 100, current_price := 60, last_updated := 0 } 2
      = pyRound (max (min ((60 : ℚ) * (1 + 2 / 100)) 100) ((100 : ℚ) * (1/2))) 2 :=
  (rounding_once_after_clamp_half_even
    { id := 1, name := "TV", category := "tv", retailer := "Walmart"
    , base_price := 100, current_price := 60, last_updated := 0 } 2).1
